import Mathlib

/-!
# Newton-ring measurement pipeline: verified shallow embedding

A shallow embedding, in exact rational arithmetic, of the core pipeline of the
Newton-ring curvature-measurement program:

* `NewtonRing.fit_radius_squared_vs_n` — `src/calculation.py`
* `NewtonRing.analyze_error`           — `src/error_analysis.py`
* `NewtonRing.estimate_center`, `NewtonRing.radial_profile_len`,
  `NewtonRing.effectiveWindow`, `NewtonRing.detect_newton_rings`,
  `NewtonRing.mainPipeline`            — `src/detection.py`, `main.py`

Python floats are modelled by `ℚ`; `float("nan")` sentinels are modelled by
`Option` (`none` = not-a-number), and quantities that the code obtains via
`sqrt` carry their (rational) radicand instead, with the correspondence noted
at each definition.  External library calls (OpenCV, SciPy) are parameters of
the embedding: the pipeline's own arithmetic and control flow are transcribed
from the source.
-/

namespace NewtonRing

/-! ## Curve fitter (`src/calculation.py`, `fit_radius_squared_vs_n`) -/

/-- The fringe-order abscissa `n[i]`: the code builds
`n = np.arange(ring_index_start, ring_index_start + len(radii_mm))`,
so `n[i] = ring_index_start + i`. -/
def xval (start : ℤ) (i : ℕ) : ℚ := (start : ℚ) + i

/-- The ordinate `r2[i] = radii_mm[i] ** 2`. -/
def yval (radii : List ℚ) (i : ℕ) : ℚ := (radii.getD i 0) ^ 2

/-- `n.mean()` for `n = arange(start, start + N)`. -/
def meanX (start : ℤ) (N : ℕ) : ℚ := (∑ i in Finset.range N, xval start i) / N

/-- `r2.mean()`. -/
def meanY (radii : List ℚ) : ℚ :=
  (∑ i in Finset.range radii.length, yval radii i) / radii.length

/-- `Sxx = np.sum((n - n.mean()) ** 2)`. -/
def Sxx (start : ℤ) (N : ℕ) : ℚ :=
  ∑ i in Finset.range N, (xval start i - meanX start N) ^ 2

/-- The centred cross sum `Σ (n[i] - n.mean()) * (r2[i] - r2.mean())`.
Together with `Sxx` it gives the closed form of the degree-1 ordinary
least-squares fit that `np.polyfit(n, r2, 1)` computes. -/
def Sxy (radii : List ℚ) (start : ℤ) : ℚ :=
  ∑ i in Finset.range radii.length,
    (xval start i - meanX start radii.length) * (yval radii i - meanY radii)

/-- The fitted slope: `np.polyfit(n, r2, 1)` solves the ordinary least-squares
problem, whose unique solution for non-degenerate abscissae (`Sxx > 0`) is
`slope = Sxy / Sxx`.  (For `Sxx = 0` the problem is underdetermined and no
claim depends on the value; rational division by zero makes this total.) -/
def fitSlope (radii : List ℚ) (start : ℤ) : ℚ :=
  Sxy radii start / Sxx start radii.length

/-- The fitted intercept of the least-squares line:
`intercept = r2.mean() - slope * n.mean()`. -/
def fitIntercept (radii : List ℚ) (start : ℤ) : ℚ :=
  meanY radii - fitSlope radii start * meanX start radii.length

/-- `np.sum(residuals ** 2)` where `residuals = r2 - (slope * n + intercept)`. -/
def ssRes (radii : List ℚ) (start : ℤ) : ℚ :=
  ∑ i in Finset.range radii.length,
    (yval radii i - (fitSlope radii start * xval start i + fitIntercept radii start)) ^ 2

/-- `ss_tot = np.sum((r2 - r2.mean()) ** 2)`. -/
def ssTot (radii : List ℚ) : ℚ :=
  ∑ i in Finset.range radii.length, (yval radii i - meanY radii) ^ 2

/-- `dof = max(1, len(n) - 2)` (truncated subtraction on `ℕ` agrees with the
Python `max` for every length). -/
def dof (N : ℕ) : ℕ := max 1 (N - 2)

/-- `sigma2 = np.sum(residuals ** 2) / dof`. -/
def sigma2 (radii : List ℚ) (start : ℤ) : ℚ :=
  ssRes radii start / (dof radii.length : ℚ)

/-- Result record of `fit_radius_squared_vs_n`.  Fields named as the keys of
the returned dict.  The code stores `slope_se = sqrt(sigma2 / Sxx)` (a float,
`nan` when `Sxx == 0`); the embedding carries the radicand:
`slope_se_sq = some q` means the code's `slope_se = sqrt q`, and `none` means
`float("nan")`.  Likewise for `intercept_se_sq` and `R_se_mm_sq`
(`R_se_mm = slope_se / wavelength_mm`, so its square is
`slope_se_sq / wavelength_mm ** 2`). -/
structure FitResult where
  n : List ℚ
  r_mm : List ℚ
  r2_mm2 : List ℚ
  slope : ℚ
  intercept : ℚ
  slope_se_sq : Option ℚ
  intercept_se_sq : Option ℚ
  R_mm : ℚ
  R_se_mm_sq : Option ℚ
  r_squared : ℚ
  deriving Repr, DecidableEq

/-- Embedding of `fit_radius_squared_vs_n(radii_mm, wavelength_nm,
ring_index_start)` (`src/calculation.py`, lines 20–62), over `ℚ`:

* `n = arange(start, start + N)`, `r2 = radii ** 2`;
* `slope, intercept = np.polyfit(n, r2, 1)` — ordinary least squares in
  closed form (`fitSlope`, `fitIntercept`);
* `slope_se = sqrt(sigma2 / Sxx) if Sxx > 0 else nan`, and similarly for
  `intercept_se` — carried as radicands, `none` for `nan`;
* `r_squared = 1 - ssRes / ssTot if ss_tot > 0 else 0.0`;
* `wavelength_mm = wavelength_nm * 1e-6`; `R_mm = slope / wavelength_mm`;
* `R_se_mm = slope_se / wavelength_mm if isfinite(slope_se) else nan`. -/
def fit_radius_squared_vs_n (radii_mm : List ℚ) (wavelength_nm : ℚ)
    (ring_index_start : ℤ) : FitResult :=
  let N := radii_mm.length
  let slope := fitSlope radii_mm ring_index_start
  let intercept := fitIntercept radii_mm ring_index_start
  let s2 := sigma2 radii_mm ring_index_start
  let sxx := Sxx ring_index_start N
  let slope_se_sq : Option ℚ := if 0 < sxx then some (s2 / sxx) else none
  let intercept_se_sq : Option ℚ :=
    if 0 < sxx then
      some (s2 * (1 / (N : ℚ) + (meanX ring_index_start N) ^ 2 / sxx))
    else none
  let sst := ssTot radii_mm
  let r_squared : ℚ := if 0 < sst then 1 - ssRes radii_mm ring_index_start / sst else 0
  let wavelength_mm : ℚ := wavelength_nm * (1 / 1000000)
  { n := (List.range N).map (fun i => xval ring_index_start i)
    r_mm := radii_mm
    r2_mm2 := radii_mm.map (fun r => r ^ 2)
    slope := slope
    intercept := intercept
    slope_se_sq := slope_se_sq
    intercept_se_sq := intercept_se_sq
    R_mm := slope / wavelength_mm
    R_se_mm_sq := slope_se_sq.map (fun s => s / wavelength_mm ^ 2)
    r_squared := r_squared }

/-! ## Error analyzer (`src/error_analysis.py`, `analyze_error`) -/

/-- A Python float as seen by `np.isfinite` and `!= 0`: a finite rational, or
one of the non-finite sentinels. -/
inductive PyFloat where
  | finite (val : ℚ)
  | nan
  | posInf
  | negInf
  deriving Repr, DecidableEq

/-- `np.isfinite`. -/
def PyFloat.isfinite : PyFloat → Bool
  | .finite _ => true
  | _ => false

/-- The `thresholds` dict: a key is either present (`some`) or missing
(`none`, replaced by the code's default on lookup). -/
structure Thresholds where
  min_r_squared : Option ℚ
  max_rel_error : Option ℚ
  deriving Repr, DecidableEq

/-- Result record of `analyze_error`, fields named as the keys of the returned
dict (`thr_*` for the echoed `thresholds`, `residual_*` for `residual_stats`).
Python `None` placeholders for the reference-dependent fields are `none`.
The code stores `residual_std = np.std(residuals, ddof=1)`; the embedding
carries its square `residual_std_sq_mm2` (the `ddof=1` sample variance). -/
structure ErrorResult where
  measured_R_mm : ℚ
  reference_R_mm : Option ℚ
  abs_error_mm : Option ℚ
  rel_error : Option ℚ
  r_squared : ℚ
  thr_min_r_squared : ℚ
  thr_max_rel_error : Option ℚ
  residuals_mm2 : List ℚ
  residual_mean_mm2 : ℚ
  residual_std_sq_mm2 : ℚ
  residual_max_abs_mm2 : ℚ
  pass_fit_quality : Bool
  pass_error : Option Bool
  overall_pass : Bool
  deriving Repr, DecidableEq

/-- Embedding of `analyze_error(fit, reference_R_mm, thresholds)`
(`src/error_analysis.py`, lines 27–117):

* `min_r2 = thresholds.get("min_r_squared", 0.98)`;
* residuals of `r2` recomputed from the fit's `n`, `r2_mm2`, `slope`,
  `intercept`; statistics guarded exactly as the code
  (`mean`/`max_abs` need a nonempty array, `std` needs `size >= 2`);
* `pass_fit_quality = (r_squared >= min_r2)`;
* the reference-dependent fields are set only when
  `reference_R_mm is not None and np.isfinite(reference_R_mm) and
  reference_R_mm != 0`, with `abs_error = |measured - ref|`,
  `rel_error = abs_error / |ref|`, `pass_error = (rel_error <= max_rel_error)`
  when that threshold is configured and `True` otherwise;
* `overall_pass = pass_fit_quality and (pass_error if not None else True)`. -/
def analyze_error (fit : FitResult) (reference_R_mm : Option PyFloat)
    (thresholds : Thresholds) : ErrorResult :=
  let min_r2 : ℚ := thresholds.min_r_squared.getD (98 / 100)
  let max_rel_error := thresholds.max_rel_error
  let residuals : List ℚ :=
    List.zipWith (fun xi yi => yi - (fit.slope * xi + fit.intercept)) fit.n fit.r2_mm2
  let residual_mean : ℚ :=
    if residuals.length ≠ 0 then residuals.sum / residuals.length else 0
  let residual_std_sq : ℚ :=
    if 2 ≤ residuals.length then
      (residuals.map (fun d => (d - residuals.sum / residuals.length) ^ 2)).sum
        / ((residuals.length : ℚ) - 1)
    else 0
  let residual_max_abs : ℚ := (residuals.map (fun d => |d|)).foldr max 0
  let measured := fit.R_mm
  let pass_fit_quality : Bool := decide (min_r2 ≤ fit.r_squared)
  let refq : Option ℚ :=
    match reference_R_mm with
    | some (PyFloat.finite q) => if q = 0 then none else some q
    | _ => none
  let pass_error : Option Bool := refq.map (fun q =>
    match max_rel_error with
    | some m => decide (|measured - q| / |q| ≤ m)
    | none => true)
  { measured_R_mm := measured
    reference_R_mm := refq
    abs_error_mm := refq.map (fun q => |measured - q|)
    rel_error := refq.map (fun q => |measured - q| / |q|)
    r_squared := fit.r_squared
    thr_min_r_squared := min_r2
    thr_max_rel_error := max_rel_error
    residuals_mm2 := residuals
    residual_mean_mm2 := residual_mean
    residual_std_sq_mm2 := residual_std_sq
    residual_max_abs_mm2 := residual_max_abs
    pass_fit_quality := pass_fit_quality
    pass_error := pass_error
    overall_pass := pass_fit_quality && pass_error.getD true }

/-! ## Detection (`src/detection.py`) -/

/-- The `CenterResult` dataclass. -/
structure CenterResult where
  x : ℚ
  y : ℚ
  method : String
  score : ℚ
  deriving Repr, DecidableEq

/-- Python `str.lower()` on the (ASCII) method-name strings: lowercase each
character. -/
def pyLower (s : String) : String := ⟨s.data.map Char.toLower⟩

/-- Embedding of `estimate_center(gray, cfg)` (`src/detection.py`,
lines 89–107).  The two detectors `_center_by_gradient` and `_center_by_hough`
are OpenCV-driven; their outcomes on the given image are the parameters
`gradientRes` and `houghRes` (`none` = the detector returned `None`).
`cfg_method` is `cfg.get("center_detection_method", "gradient")`; the code
lowercases it and tries Hough first iff it equals `"hough"`, then the other
detector, and finally falls back to the geometric image centre
`CenterResult(w / 2.0, h / 2.0, "fallback_center", 0.0)`. -/
def estimate_center (cfg_method : String) (gradientRes houghRes : Option CenterResult)
    (h w : ℕ) : CenterResult :=
  let first := if pyLower cfg_method = "hough" then houghRes else gradientRes
  let second := if pyLower cfg_method = "hough" then gradientRes else houghRes
  match first with
  | some r => r
  | none =>
    match second with
    | some r => r
    | none => ⟨(w : ℚ) / 2, (h : ℚ) / 2, "fallback_center", 0⟩

/-- Python `int(q)`: truncation toward zero. -/
def pyInt (q : ℚ) : ℤ := if 0 ≤ q then ⌊q⌋ else ⌈q⌉

/-- The default `max_radius` of `radial_profile` before the floor:
`int(min(cx, cy, w - cx, h - cy))` — the truncated distance from the centre to
the nearest image edge. -/
def defaultMaxRadius (w h : ℕ) (cx cy : ℚ) : ℤ :=
  pyInt (min (min cx cy) (min ((w : ℚ) - cx) ((h : ℚ) - cy)))

/-- The radius bound in effect in `radial_profile`:
`max_radius = int(max(10, max_radius))` applied to the supplied value or, when
`None`, to `defaultMaxRadius`. -/
def effectiveMaxRadius (w h : ℕ) (cx cy : ℚ) (max_radius : Option ℤ) : ℤ :=
  max 10 (max_radius.getD (defaultMaxRadius w h cx cy))

/-- Embedding of `radial_profile(gray, cx, cy, num_angles, max_radius)`
(`src/detection.py`, lines 110–135).  The code builds a
`(num_angles, max_radius)` sampling grid over radii `0..max_radius-1`,
fills it with `cv2.remap` (bilinear interpolation, reflect border) and
averages over the angle axis.  `sample a r` is the library's interpolated
intensity at angle index `a` and radius `r`; the grid shape and the final
`mean(axis=0)` are the code's own. -/
def radial_profile (w h : ℕ) (cx cy : ℚ) (sample : ℕ → ℕ → ℚ) (num_angles : ℕ)
    (max_radius : Option ℤ) : List ℚ :=
  let m := (effectiveMaxRadius w h cx cy max_radius).toNat
  (List.range m).map (fun r => (∑ a in Finset.range num_angles, sample a r) / num_angles)

/-- The smoothing window used by `find_dark_rings` (`src/detection.py`,
lines 144–148): `win = int(cfg.get("profile_smooth_window", 9))`, clamped to
at least 3 (`if win < 3: win = 3`), then forced odd
(`if win % 2 == 0: win += 1`). -/
def effectiveWindow (win : ℤ) : ℤ :=
  let w := if win < 3 then 3 else win
  if w % 2 = 0 then w + 1 else w

/-- The minimum-radius cutoff of `find_dark_rings` (`src/detection.py`,
lines 160–161): `peaks = peaks[peaks >= min_r]`.  The peak positions produced
by `scipy.signal.find_peaks` on the smoothed profile are the parameter
`peaks`. -/
def surviving_minima (peaks : List ℕ) (min_r : ℕ) : List ℕ :=
  peaks.filter (fun p => min_r ≤ p)

/-- Outcome record of `detect_newton_rings`: either the failure dict
`{"success": False, "message": ...}` or the success dict with the centre and
the truncated radii. -/
inductive DetectResult where
  | failure (message : String)
  | success (center : CenterResult) (radii_px : List ℕ) (radii_mm : List ℚ)
  deriving Repr, DecidableEq

/-- The failure message
`f"Detected rings ({detected}) < min_rings ({required}). Try tuning config."`. -/
def ringCountMessage (detected required : ℕ) : String :=
  s!"Detected rings ({detected}) < min_rings ({required}). Try tuning config."

/-- Embedding of the ring-count policy of `detect_newton_rings`
(`src/detection.py`, lines 213–236), downstream of `find_dark_rings`:
`minima` is the ascending list of surviving minima.  If
`len(minima) < min_rings` the failure dict is returned; otherwise
`minima = minima[:max_rings]` keeps the first `max_rings` entries and
`radii_mm = minima * pixel_to_mm`. -/
def detect_newton_rings (center : CenterResult) (minima : List ℕ)
    (min_rings max_rings : ℕ) (pixel_to_mm : ℚ) : DetectResult :=
  if minima.length < min_rings then
    DetectResult.failure (ringCountMessage minima.length min_rings)
  else
    let kept := minima.take max_rings
    DetectResult.success center kept (kept.map (fun p => (p : ℚ) * pixel_to_mm))

/-- Outcome of the `main` pipeline stage after detection (`main.py`,
lines 86–111): on detection failure `main` logs and returns exit code 3
without constructing a fit or an error analysis; otherwise it fits and, when
error analysis is enabled, analyzes. -/
inductive PipelineResult where
  | detectionFailed (message : String) (exitCode : ℤ)
  | completed (det : DetectResult) (fit : FitResult) (err : Option ErrorResult)
  deriving Repr, DecidableEq

/-- Embedding of `main`'s post-detection control flow (`main.py`,
lines 86–111): `if not det["success"]: return 3` before
`fit_radius_squared_vs_n` and `analyze_error` are ever called. -/
def mainPipeline (det : DetectResult) (wavelength_nm : ℚ) (ring_index_start : ℤ)
    (error_enabled : Bool) (reference_R_mm : Option PyFloat) (thr : Thresholds) :
    PipelineResult :=
  match det with
  | DetectResult.failure msg => PipelineResult.detectionFailed msg 3
  | DetectResult.success c px mm =>
    let fit := fit_radius_squared_vs_n mm wavelength_nm ring_index_start
    let err := if error_enabled then some (analyze_error fit reference_R_mm thr) else none
    PipelineResult.completed (DetectResult.success c px mm) fit err

/-! ## Theorems -/

/-- **C10.** For every configured smoothing-window value, `find_dark_rings`
clamps the window to a minimum of 3 before forcing it odd, so the effective
moving-average window is always an odd integer ≥ 3, for any integer
configuration value (including 2, 1, 0 and negative numbers). -/
theorem effectiveWindow_odd_ge_three (win : ℤ) :
    3 ≤ effectiveWindow win ∧ effectiveWindow win % 2 = 1 := by
  unfold effectiveWindow
  by_cases h3 : win < 3 <;> simp only [h3, if_true, if_false] <;>
    by_cases h2 : (if win < 3 then (3 : ℤ) else win) % 2 = 0 <;>
    simp only [h3, if_true, if_false] at h2 ⊢ <;> omega

/-- **C9.** For every image, centre and sampling function, `radial_profile`
returns a profile whose length is the maximum radius in effect; when no
maximum radius is supplied that is the truncated distance from the centre to
the nearest image edge, floored at 10; and entry `r` of the profile is the
angular mean of the samples at integer radius `r`, for every
`r < maxRadius`. -/
theorem radial_profile_length_spec (w h num_angles : ℕ) (cx cy : ℚ)
    (sample : ℕ → ℕ → ℚ) (max_radius : Option ℤ) (r : ℕ)
    (hr : r < (effectiveMaxRadius w h cx cy max_radius).toNat) :
    (radial_profile w h cx cy sample num_angles max_radius).length
        = (effectiveMaxRadius w h cx cy max_radius).toNat ∧
    effectiveMaxRadius w h cx cy none = max 10 (defaultMaxRadius w h cx cy) ∧
    (radial_profile w h cx cy sample num_angles max_radius).getD r 0
        = (∑ a in Finset.range num_angles, sample a r) / num_angles := by
  refine ⟨?_, rfl, ?_⟩
  · simp [radial_profile]
  · rw [List.getD_eq_getElem?_getD]
    simp [radial_profile, hr]

/-- Closed instance of `radial_profile_length_spec` (image 64×48, centre
(20, 30), default maximum radius `min 20 30 44 18 = 18`, entry 5). -/
theorem radial_profile_length_spec_witness :
    (5 < (effectiveMaxRadius 64 48 20 30 none).toNat) ∧
    (radial_profile 64 48 20 30 (fun _ _ => 7) 4 none).length
        = (effectiveMaxRadius 64 48 20 30 none).toNat ∧
    (radial_profile 64 48 20 30 (fun _ _ => 7) 4 none).getD 5 0
        = (∑ _a in Finset.range 4, (7 : ℚ)) / 4 := by
  have h18 : effectiveMaxRadius 64 48 20 30 none = 18 := by
    simp only [effectiveMaxRadius, defaultMaxRadius, pyInt, Option.getD]
    norm_num
  have h5 : 5 < (effectiveMaxRadius 64 48 20 30 none).toNat := by
    rw [h18]; decide
  have h := radial_profile_length_spec 64 48 4 20 30 (fun _ _ => 7) none 5 h5
  exact ⟨h5, h.1, h.2.2⟩

/-- **C3 counterexample.** When both detectors fail, the centre returned by
`estimate_center` carries the method tag `"fallback_center"`, not `"default"`
as the claim states (the behaviour — geometric centre `(w/2, h/2)` with
score 0 — is as claimed; only the tag differs). -/
theorem estimate_center_default_tag_counterexample :
    estimate_center "gradient" none none 4 6
        = ⟨3, 2, "fallback_center", 0⟩ ∧
    (estimate_center "gradient" none none 4 6).method ≠ "default" := by
  constructor
  · have h : estimate_center "gradient" none none 4 6
        = ⟨(6 : ℚ) / 2, (4 : ℚ) / 2, "fallback_center", 0⟩ := rfl
    rw [h]
    norm_num
  · decide

/-- **C3 amended.** For every grayscale image and configuration,
`estimate_center` tries the configured preferred method first (Hough iff the
configured string lowercases to `"hough"`, else gradient-centroid) and the
other method on its failure; when both fail it returns the image's geometric
centre `(width/2, height/2)` with score 0 and method tag
`"fallback_center"`. -/
theorem estimate_center_policy (cfg_method : String)
    (gradientRes houghRes : Option CenterResult) (h w : ℕ) :
    estimate_center cfg_method gradientRes houghRes h w
      = (if pyLower cfg_method = "hough"
          then houghRes.getD (gradientRes.getD
            ⟨(w : ℚ) / 2, (h : ℚ) / 2, "fallback_center", 0⟩)
          else gradientRes.getD (houghRes.getD
            ⟨(w : ℚ) / 2, (h : ℚ) / 2, "fallback_center", 0⟩)) := by
  unfold estimate_center
  by_cases hm : pyLower cfg_method = "hough" <;>
    simp only [hm, if_true, if_false] <;>
    cases gradientRes <;> cases houghRes <;> rfl

/-- **C2.** Whenever the number of surviving fringe minima is below
`min_rings`, `detect_newton_rings` returns the failure record
(`success=False`) whose message states the detected versus required ring
count, and `main`'s pipeline stops with exit code 3: the curve fitter and the
error analyzer are never invoked (the `detectionFailed` outcome carries no
`FitResult` and no `ErrorResult`). -/
theorem detect_too_few_rings_fails (center : CenterResult) (minima : List ℕ)
    (min_rings max_rings : ℕ) (pixel_to_mm : ℚ) (wavelength_nm : ℚ)
    (ring_index_start : ℤ) (error_enabled : Bool) (reference : Option PyFloat)
    (thr : Thresholds) (hfew : minima.length < min_rings) :
    detect_newton_rings center minima min_rings max_rings pixel_to_mm
        = DetectResult.failure (ringCountMessage minima.length min_rings) ∧
    mainPipeline (detect_newton_rings center minima min_rings max_rings pixel_to_mm)
        wavelength_nm ring_index_start error_enabled reference thr
        = PipelineResult.detectionFailed (ringCountMessage minima.length min_rings) 3 := by
  have hdet : detect_newton_rings center minima min_rings max_rings pixel_to_mm
      = DetectResult.failure (ringCountMessage minima.length min_rings) := by
    unfold detect_newton_rings
    simp [hfew]
  exact ⟨hdet, by rw [hdet]; rfl⟩

/-- Closed instance of `detect_too_few_rings_fails` (2 minima against the
default `min_rings = 5`). -/
theorem detect_too_few_rings_fails_witness :
    detect_newton_rings ⟨100, 100, "gradient", 1⟩ [12, 20] 5 30 (1 / 100)
        = DetectResult.failure (ringCountMessage 2 5) ∧
    mainPipeline (detect_newton_rings ⟨100, 100, "gradient", 1⟩ [12, 20] 5 30 (1 / 100))
        (5893 / 10) 1 true none ⟨none, none⟩
        = PipelineResult.detectionFailed (ringCountMessage 2 5) 3 :=
  detect_too_few_rings_fails ⟨100, 100, "gradient", 1⟩ [12, 20] 5 30 (1 / 100)
    (5893 / 10) 1 true none ⟨none, none⟩ (by decide)

/-- **C8.** Whenever detection passes the minimum-ring check, the result is a
success record (never a failure) whose pixel radii are the first `max_rings`
elements of the ascending minima sequence: when more than `max_rings` minima
were detected exactly `max_rings` survive, the kept radii stay in ascending
order, and every kept radius is ≤ every discarded one (the innermost fringes
are kept, the largest discarded). -/
theorem detect_truncates_to_innermost (center : CenterResult) (minima : List ℕ)
    (min_rings max_rings : ℕ) (pixel_to_mm : ℚ)
    (henough : min_rings ≤ minima.length)
    (hsorted : List.Sorted (· ≤ ·) minima) :
    detect_newton_rings center minima min_rings max_rings pixel_to_mm
        = DetectResult.success center (minima.take max_rings)
            ((minima.take max_rings).map (fun p => (p : ℚ) * pixel_to_mm)) ∧
    (max_rings < minima.length → (minima.take max_rings).length = max_rings) ∧
    List.Sorted (· ≤ ·) (minima.take max_rings) ∧
    (∀ a ∈ minima.take max_rings, ∀ b ∈ minima.drop max_rings, a ≤ b) := by
  refine ⟨?_, ?_, ?_, ?_⟩
  · unfold detect_newton_rings
    simp [Nat.not_lt.mpr henough]
  · intro hmore
    rw [List.length_take]
    omega
  · exact hsorted.sublist (List.take_sublist _ _)
  · have hsplit := List.take_append_drop max_rings minima
    have hpw : List.Pairwise (· ≤ ·) (minima.take max_rings ++ minima.drop max_rings) := by
      rw [hsplit]; exact hsorted
    exact (List.pairwise_append.mp hpw).2.2

/-- Closed instance of `detect_truncates_to_innermost`
(5 ascending minima, `min_rings = 2`, `max_rings = 3`: the three smallest are
kept, 40 and 50 are discarded). -/
theorem detect_truncates_to_innermost_witness :
    detect_newton_rings ⟨100, 100, "gradient", 1⟩ [12, 20, 31, 40, 50] 2 3 (1 / 100)
        = DetectResult.success ⟨100, 100, "gradient", 1⟩ [12, 20, 31]
            ([12, 20, 31].map (fun p => (p : ℚ) * (1 / 100))) ∧
    ([12, 20, 31, 40, 50].take 3).length = 3 ∧
    (∀ a ∈ [12, 20, 31, 40, 50].take 3, ∀ b ∈ [12, 20, 31, 40, 50].drop 3, a ≤ b) := by
  have h := detect_truncates_to_innermost ⟨100, 100, "gradient", 1⟩ [12, 20, 31, 40, 50]
    2 3 (1 / 100) (by decide) (by decide)
  exact ⟨h.1, h.2.1 (by decide), h.2.2.2⟩

/-- **C4.** `analyze_error` populates the reference-dependent fields exactly
when a finite, non-zero reference radius is supplied: then
`reference_R_mm = ref`, `abs_error_mm = |measured - ref|`,
`rel_error = abs_error / |ref|`, and `pass_error` is `rel_error ≤
max_rel_error` when that threshold is configured and `true` otherwise; when
the reference is absent, non-finite or zero, all four fields are absent. -/
theorem analyze_error_reference_fields (fit : FitResult)
    (reference : Option PyFloat) (thr : Thresholds) :
    (∀ q : ℚ, reference = some (PyFloat.finite q) → q ≠ 0 →
      (analyze_error fit reference thr).reference_R_mm = some q ∧
      (analyze_error fit reference thr).abs_error_mm = some |fit.R_mm - q| ∧
      (analyze_error fit reference thr).rel_error = some (|fit.R_mm - q| / |q|) ∧
      (thr.max_rel_error = none →
        (analyze_error fit reference thr).pass_error = some true) ∧
      (∀ m : ℚ, thr.max_rel_error = some m →
        (analyze_error fit reference thr).pass_error
          = some (decide (|fit.R_mm - q| / |q| ≤ m)))) ∧
    ((∀ q : ℚ, reference = some (PyFloat.finite q) → q = 0) →
      (analyze_error fit reference thr).reference_R_mm = none ∧
      (analyze_error fit reference thr).abs_error_mm = none ∧
      (analyze_error fit reference thr).rel_error = none ∧
      (analyze_error fit reference thr).pass_error = none) := by
  constructor
  · intro q hq hq0
    subst hq
    refine ⟨?_, ?_, ?_, ?_, ?_⟩
    · simp [analyze_error, hq0]
    · simp [analyze_error, hq0]
    · simp [analyze_error, hq0]
    · intro hnone; simp [analyze_error, hq0, hnone]
    · intro m hm; simp [analyze_error, hq0, hm]
  · intro hz
    match href : reference with
    | none => simp [analyze_error]
    | some PyFloat.nan => simp [analyze_error]
    | some PyFloat.posInf => simp [analyze_error]
    | some PyFloat.negInf => simp [analyze_error]
    | some (PyFloat.finite q) =>
      have hq0 : q = 0 := hz q rfl
      simp [analyze_error, hq0]

/-- Closed instance of `analyze_error_reference_fields`: the spec's worked
example, `measured_R_mm = 10.5`, `reference_R_mm = 10`, no error threshold:
`abs_error_mm = 0.5`, `rel_error = 0.05`, `pass_error = true`. -/
theorem analyze_error_reference_fields_witness :
    (analyze_error ⟨[], [], [], 0, 0, none, none, 21 / 2, none, 1⟩
        (some (PyFloat.finite 10)) ⟨none, none⟩).abs_error_mm = some (1 / 2) ∧
    (analyze_error ⟨[], [], [], 0, 0, none, none, 21 / 2, none, 1⟩
        (some (PyFloat.finite 10)) ⟨none, none⟩).rel_error = some (1 / 20) ∧
    (analyze_error ⟨[], [], [], 0, 0, none, none, 21 / 2, none, 1⟩
        (some (PyFloat.finite 10)) ⟨none, none⟩).pass_error = some true := by
  have h := (analyze_error_reference_fields
    ⟨[], [], [], 0, 0, none, none, 21 / 2, none, 1⟩
    (some (PyFloat.finite 10)) ⟨none, none⟩).1 10 rfl (by norm_num)
  refine ⟨?_, ?_, h.2.2.2.1 rfl⟩
  · rw [h.2.1]; norm_num
  · rw [h.2.2.1]; norm_num [abs_of_pos]

/-- **C5.** `analyze_error` sets `pass_fit_quality = (r_squared ≥
min_r_squared)` (default threshold 0.98), and
`overall_pass = pass_fit_quality AND (pass_error when defined, else true)`;
with no reference supplied, `overall_pass` equals `pass_fit_quality`. -/
theorem analyze_error_pass_flags (fit : FitResult) (reference : Option PyFloat)
    (thr : Thresholds) :
    (analyze_error fit reference thr).pass_fit_quality
        = decide (thr.min_r_squared.getD (98 / 100) ≤ fit.r_squared) ∧
    (analyze_error fit reference thr).overall_pass
        = ((analyze_error fit reference thr).pass_fit_quality
            && ((analyze_error fit reference thr).pass_error).getD true) ∧
    (reference = none →
      (analyze_error fit reference thr).overall_pass
          = (analyze_error fit reference thr).pass_fit_quality) := by
  refine ⟨rfl, rfl, ?_⟩
  intro href
  subst href
  simp [analyze_error]

/-- Closed instance of `analyze_error_pass_flags` (no reference supplied). -/
theorem analyze_error_pass_flags_witness :
    (analyze_error ⟨[], [], [], 0, 0, none, none, 20, none, 1⟩ none
        ⟨none, none⟩).overall_pass
      = (analyze_error ⟨[], [], [], 0, 0, none, none, 20, none, 1⟩ none
        ⟨none, none⟩).pass_fit_quality :=
  (analyze_error_pass_flags ⟨[], [], [], 0, 0, none, none, 20, none, 1⟩ none
    ⟨none, none⟩).2.2 rfl

/-- **C6.** For every input radius list and starting index, the `FitResult`
lists are consistent: `n`, `r_mm` and `r2_mm2` all have the input's length,
`r_mm` is the input list itself, `n` is the contiguous sequence starting at
`ring_index_start`, and `r2_mm2[i] = r_mm[i] ^ 2` for every index. -/
theorem fit_result_lists (radii : List ℚ) (wavelength_nm : ℚ) (start : ℤ) :
    (fit_radius_squared_vs_n radii wavelength_nm start).n.length = radii.length ∧
    (fit_radius_squared_vs_n radii wavelength_nm start).r_mm = radii ∧
    (fit_radius_squared_vs_n radii wavelength_nm start).r2_mm2.length = radii.length ∧
    (∀ i, i < radii.length →
      (fit_radius_squared_vs_n radii wavelength_nm start).n.getD i 0
        = (start : ℚ) + i) ∧
    (∀ i, i < radii.length →
      (fit_radius_squared_vs_n radii wavelength_nm start).r2_mm2.getD i 0
        = ((fit_radius_squared_vs_n radii wavelength_nm start).r_mm.getD i 0) ^ 2) := by
  refine ⟨by simp [fit_radius_squared_vs_n], rfl, by simp [fit_radius_squared_vs_n],
    ?_, ?_⟩
  · intro i hi
    rw [List.getD_eq_getElem?_getD]
    simp [fit_radius_squared_vs_n, hi, xval]
  · intro i hi
    rw [List.getD_eq_getElem?_getD, List.getD_eq_getElem?_getD]
    have hr : radii[i]? = some radii[i] := List.getElem?_eq_getElem hi
    simp [fit_radius_squared_vs_n, hr]

/-- Closed instance of `fit_result_lists`. -/
theorem fit_result_lists_witness :
    (fit_radius_squared_vs_n [3 / 2, 2] 589 2).n.length = 2 ∧
    (fit_radius_squared_vs_n [3 / 2, 2] 589 2).n.getD 1 0
        = ((2 : ℤ) : ℚ) + ((1 : ℕ) : ℚ) ∧
    (fit_radius_squared_vs_n [3 / 2, 2] 589 2).r2_mm2.getD 0 0
        = ((fit_radius_squared_vs_n [3 / 2, 2] 589 2).r_mm.getD 0 0) ^ 2 := by
  have h := fit_result_lists [3 / 2, 2] 589 2
  exact ⟨h.1, h.2.2.2.1 1 (by decide), h.2.2.2.2 0 (by decide)⟩

/-- **C7.** On degenerate input whose order sequence has zero variance
(`Sxx = 0`; for a nonempty input this means a single fringe), the fit returns
not-a-number standard errors — `slope_se`, `intercept_se` and hence `R_se_mm`
are all `nan` (modelled by `none`) — and no exception is raised (the
embedding is total on this domain). -/
theorem fit_degenerate_se_nan (radii : List ℚ) (wavelength_nm : ℚ) (start : ℤ)
    (_hne : radii ≠ []) (hSxx : Sxx start radii.length = 0) :
    (fit_radius_squared_vs_n radii wavelength_nm start).slope_se_sq = none ∧
    (fit_radius_squared_vs_n radii wavelength_nm start).intercept_se_sq = none ∧
    (fit_radius_squared_vs_n radii wavelength_nm start).R_se_mm_sq = none := by
  refine ⟨?_, ?_, ?_⟩ <;> simp [fit_radius_squared_vs_n, hSxx]

/-- Closed instance of `fit_degenerate_se_nan` (a single detected fringe). -/
theorem fit_degenerate_se_nan_witness :
    (fit_radius_squared_vs_n [5 / 2] (5893 / 10) 1).slope_se_sq = none ∧
    (fit_radius_squared_vs_n [5 / 2] (5893 / 10) 1).intercept_se_sq = none ∧
    (fit_radius_squared_vs_n [5 / 2] (5893 / 10) 1).R_se_mm_sq = none :=
  fit_degenerate_se_nan [5 / 2] (5893 / 10) 1 (by decide)
    (by simp [Sxx, meanX, xval, Finset.sum_range_succ])

/-- If the data `(n, r²)` lie exactly on the line `y = a·x + b`, the mean of
`r²` lies on that line at the mean of `n`. -/
theorem meanY_affine {radii : List ℚ} {start : ℤ} {a b : ℚ}
    (hN : radii.length ≠ 0)
    (hy : ∀ i, i < radii.length → yval radii i = a * xval start i + b) :
    meanY radii = a * meanX start radii.length + b := by
  unfold meanY meanX
  rw [Finset.sum_congr rfl (fun i hi => hy i (Finset.mem_range.mp hi)),
    Finset.sum_add_distrib, ← Finset.mul_sum, Finset.sum_const,
    Finset.card_range, nsmul_eq_mul]
  have hN' : (radii.length : ℚ) ≠ 0 := Nat.cast_ne_zero.mpr hN
  field_simp
  ring

/-- If the data lie exactly on `y = a·x + b`, the centred cross sum equals
`a` times the centred square sum. -/
theorem Sxy_affine {radii : List ℚ} {start : ℤ} {a b : ℚ}
    (hN : radii.length ≠ 0)
    (hy : ∀ i, i < radii.length → yval radii i = a * xval start i + b) :
    Sxy radii start = a * Sxx start radii.length := by
  unfold Sxy Sxx
  rw [Finset.mul_sum]
  refine Finset.sum_congr rfl (fun i hi => ?_)
  rw [hy i (Finset.mem_range.mp hi), meanY_affine hN hy]
  ring

/-- For at least two contiguous fringe orders, the centred square sum of the
orders is positive. -/
theorem Sxx_pos (start : ℤ) (N : ℕ) (hN : 2 ≤ N) : 0 < Sxx start N := by
  unfold Sxx
  apply Finset.sum_pos'
  · exact fun i _ => sq_nonneg _
  · by_cases h0 : xval start 0 = meanX start N
    · refine ⟨1, Finset.mem_range.mpr (by omega), ?_⟩
      have hx : xval start 1 - meanX start N = 1 := by
        rw [← h0]
        unfold xval
        push_cast
        ring
      rw [hx]
      norm_num
    · exact ⟨0, Finset.mem_range.mpr (by omega),
        sq_pos_iff.mpr (sub_ne_zero.mpr h0)⟩

/-- Exactly affine data with at least two points: the least-squares slope
recovers the true slope. -/
theorem fitSlope_affine {radii : List ℚ} {start : ℤ} {a b : ℚ}
    (hN : 2 ≤ radii.length)
    (hy : ∀ i, i < radii.length → yval radii i = a * xval start i + b) :
    fitSlope radii start = a := by
  unfold fitSlope
  rw [Sxy_affine (by omega) hy, mul_div_assoc,
    div_self (ne_of_gt (Sxx_pos start radii.length hN)), mul_one]

/-- Exactly affine data with at least two points: the least-squares intercept
recovers the true intercept. -/
theorem fitIntercept_affine {radii : List ℚ} {start : ℤ} {a b : ℚ}
    (hN : 2 ≤ radii.length)
    (hy : ∀ i, i < radii.length → yval radii i = a * xval start i + b) :
    fitIntercept radii start = b := by
  unfold fitIntercept
  rw [fitSlope_affine hN hy, meanY_affine (by omega) hy]
  ring

/-- Exactly affine data: every residual vanishes, so the residual square sum
is zero. -/
theorem ssRes_affine {radii : List ℚ} {start : ℤ} {a b : ℚ}
    (hN : 2 ≤ radii.length)
    (hy : ∀ i, i < radii.length → yval radii i = a * xval start i + b) :
    ssRes radii start = 0 := by
  unfold ssRes
  refine Finset.sum_eq_zero (fun i hi => ?_)
  rw [hy i (Finset.mem_range.mp hi), fitSlope_affine hN hy,
    fitIntercept_affine hN hy]
  ring

/-- Exactly affine data: the total square sum is `a² · Sxx`. -/
theorem ssTot_affine {radii : List ℚ} {start : ℤ} {a b : ℚ}
    (hN : radii.length ≠ 0)
    (hy : ∀ i, i < radii.length → yval radii i = a * xval start i + b) :
    ssTot radii = a ^ 2 * Sxx start radii.length := by
  unfold ssTot Sxx
  rw [Finset.mul_sum]
  refine Finset.sum_congr rfl (fun i hi => ?_)
  rw [hy i (Finset.mem_range.mp hi), meanY_affine hN hy]
  ring

/-- **C1.** For every list of `N ≥ 3` fringe radii generated exactly from the
physical model `r² = (wavelength_mm · R_true) · n + intercept` — contiguous
orders starting at `ring_index_start`, zero noise, non-zero wavelength and
curvature radius — `fit_radius_squared_vs_n` recovers `R_mm = R_true` exactly
(the rational-arithmetic idealization of "within floating-point tolerance")
and returns `r_squared = 1`. -/
theorem fit_recovers_true_radius (radii : List ℚ) (wavelength_nm : ℚ)
    (start : ℤ) (R_true b : ℚ) (hN : 3 ≤ radii.length)
    (hwl : wavelength_nm ≠ 0) (hR : R_true ≠ 0)
    (hmodel : ∀ i, i < radii.length →
      (radii.getD i 0) ^ 2
        = wavelength_nm * (1 / 1000000) * R_true * ((start : ℚ) + i) + b) :
    (fit_radius_squared_vs_n radii wavelength_nm start).R_mm = R_true ∧
    (fit_radius_squared_vs_n radii wavelength_nm start).r_squared = 1 := by
  have hy : ∀ i, i < radii.length →
      yval radii i = wavelength_nm * (1 / 1000000) * R_true * xval start i + b :=
    fun i hi => hmodel i hi
  have hN2 : 2 ≤ radii.length := by omega
  have hwlmm : wavelength_nm * (1 / 1000000) ≠ 0 :=
    mul_ne_zero hwl (by norm_num)
  have ha : wavelength_nm * (1 / 1000000) * R_true ≠ 0 := mul_ne_zero hwlmm hR
  constructor
  · show fitSlope radii start / (wavelength_nm * (1 / 1000000)) = R_true
    rw [fitSlope_affine hN2 hy, mul_div_cancel_left₀ R_true hwlmm]
  · show (if 0 < ssTot radii
        then 1 - ssRes radii start / ssTot radii else 0) = 1
    have hpos : 0 < ssTot radii := by
      rw [ssTot_affine (by omega) hy]
      exact mul_pos (sq_pos_iff.mpr ha) (Sxx_pos start radii.length hN2)
    rw [if_pos hpos, ssRes_affine hN2 hy, zero_div, sub_zero]

/-- Closed instance of `fit_recovers_true_radius`: radii `1, 5, 7` whose
squares `1, 25, 49` lie exactly on `r² = 24·n − 23` for orders `1, 2, 3`;
with `wavelength_mm = 1` the fitted curvature radius is exactly 24 and
`r_squared = 1`. -/
theorem fit_recovers_true_radius_witness :
    (fit_radius_squared_vs_n [1, 5, 7] 1000000 1).R_mm = 24 ∧
    (fit_radius_squared_vs_n [1, 5, 7] 1000000 1).r_squared = 1 :=
  fit_recovers_true_radius [1, 5, 7] 1000000 1 24 (-23) (by decide)
    (by norm_num) (by norm_num)
    (by
      intro i hi
      simp only [List.length_cons, List.length_nil] at hi
      interval_cases i <;> norm_num)

end NewtonRing
